import Mathlib

/-!
Shallow embedding of the xtools subdomain-enumeration core
(`backend/app/http_enumerator.py`, `backend/app/run_progress.py`,
`backend/app/models.py`) and proofs about it.

Machine conventions: Python strings are Lean `String`s (lists of `Char`);
Python dicts carrying probe diagnostics become a Lean structure with the
same fields; network and DNS I/O is modelled by explicit outcome values
supplied as an environment; the cooperative asyncio scheduling of the
engine is modelled by sequential folds (the only mutable state shared
between candidate tasks — the found-hostname set — is only touched
between awaits, so every interleaving agrees with the sequential fold).
-/

namespace XTools

/-! ### Response Classifier (`_is_valid_response`, http_enumerator.py lines 401-412) -/

/-- The fixed allow-list of client-error codes from `_is_valid_response`. -/
def valid_4xx : List Nat :=
  [400, 401, 403, 404, 405, 406, 407, 408, 409, 410,
   411, 412, 413, 414, 415, 416, 417, 418, 421, 422,
   423, 424, 425, 426, 428, 429, 431, 451]

/-- Model of `_is_valid_response(status_code)`: codes in [200, 400) are valid, plus the
fixed 4xx allow-list. -/
def is_valid_response (status_code : Nat) : Bool :=
  if 200 ≤ status_code ∧ status_code < 400 then true
  else valid_4xx.contains status_code

/-! ### Log buffer (`_append_log`, http_enumerator.py lines 50-54 and
enumeration_service.py lines 17-21; both copies are textually identical) -/

def LOG_LIMIT : Nat := 4000

/-- The whitespace characters stripped by Python `str.strip()` (ASCII part;
the engine's log lines are built from ASCII/emoji text, no exotic Unicode
space characters arise). -/
def isPySpace (c : Char) : Bool :=
  c = ' ' || c = '\t' || c = '\n' || c = '\r' || c = '\x0b' || c = '\x0c'

/-- Python `str.strip()` on a list of characters: drop whitespace from both
ends. -/
def pyStripList (s : List Char) : List Char :=
  ((s.dropWhile isPySpace).reverse.dropWhile isPySpace).reverse

/-- Python `str.strip()`. -/
def pyStrip (s : String) : String :=
  ⟨pyStripList s.data⟩

/-- Python `str.startswith(p)`, character-wise (Lean's `String.startsWith`
works on byte positions, which the kernel does not reduce). -/
def starts_with_chars : List Char → List Char → Bool
  | _, [] => true
  | [], _ :: _ => false
  | c :: cs, p :: ps => (c == p) && starts_with_chars cs ps

def py_starts_with (s p : String) : Bool :=
  starts_with_chars s.data p.data

/-- Python `str.upper()`, character-wise. -/
def py_upper (s : String) : String :=
  ⟨s.data.map Char.toUpper⟩

/-- Model of `_append_log(log, new_line)`: concatenate with a newline, strip, and keep
only the last `LOG_LIMIT` characters (`combined[-LOG_LIMIT:]`). -/
def append_log (log new_line : String) : String :=
  let combined := pyStrip (log ++ "\n" ++ new_line)
  if combined.length > LOG_LIMIT then
    ⟨combined.data.drop (combined.data.length - LOG_LIMIT)⟩
  else combined

/-! ### Probe diagnostics (`details` dict of `_verify_subdomain_http`)

The Python code threads a `details` dict through the probe attempts; the
structure below carries the same keys.  `none` plays the role of an absent
key / `None` value (the keys touched by `setdefault` — `detected_by`, `ip`,
`ips` — are never initialised to `None`, so the conflation is faithful).
Elapsed wall-clock times (`response_time`) are outside the embedding and are
modelled as the opaque rendered text the code would store. -/

structure Details where
  subdomain : String := ""
  method : Option String := none
  scheme : Option String := none
  status_code : Option Nat := none
  content_type : Option String := none
  content_length : Option String := none
  server : Option String := none
  title : Option String := none
  error : Option String := none
  response_time : Option String := none
  detected_by : Option String := none
  ip : Option String := none
  ips : Option (List String) := none
  final_url : Option String := none
  redirected : Option Bool := none
  sampled_bytes : Option Nat := none
  title_debug : Option String := none
deriving DecidableEq

/-- The fresh `details` dict built at the top of `_verify_subdomain_http`
(lines 145-156). -/
def baseDetails (sub : String) : Details := { subdomain := sub }

inductive Scheme
  | https
  | http
deriving DecidableEq

/-- Model of `urlparse(f"{scheme}://{subdomain}").scheme`. -/
def Scheme.url : Scheme → String
  | .https => "https"
  | .http => "http"

/-- Network outcome of one `session.request` in `_try_request`: either an
exception (`kind` is the already-formatted error string, one of
`timeout`, `connection_refused`, `http_error: <T>`, `unknown_error: <T>`)
or a completed response.  Environment-supplied peer addresses are nonempty
strings, so Python truthiness of an extracted peer IP is `isSome`. -/
inductive AttemptOutcome
  | err (kind : String)
  | resp (status : Nat) (content_type content_length server : String)
      (peerIp : Option String) (elapsed : String)

/-- Model of `details.setdefault('detected_by', details.get('method'))`. -/
def sdDetectedBy (d : Details) : Details :=
  { d with detected_by := d.detected_by.orElse (fun _ => d.method) }

/-- The peer-IP bookkeeping of the valid branch:
`setdefault('ip', p); setdefault('ips', []); append p if absent`. -/
def addPeerIp (peerIp : Option String) (d : Details) : Details :=
  match peerIp with
  | none => d
  | some p =>
      let d := { d with ip := d.ip.orElse (fun _ => some p) }
      let cur := d.ips.getD []
      let d := { d with ips := some cur }
      if p ∈ cur then d else { d with ips := some (cur ++ [p]) }

/-- Model of `_try_request(session, method, url, details, start_time)`
(http_enumerator.py lines 209-255). -/
def try_request (method : String) (s : Scheme) (o : AttemptOutcome)
    (d : Details) : Bool × Details :=
  match o with
  | .err kind => (false, { d with error := some kind })
  | .resp status ct cl server peerIp elapsed =>
      let d := { d with
        method := some method, scheme := some s.url,
        status_code := some status, content_type := some ct,
        content_length := some cl, server := some server,
        response_time := some elapsed }
      if is_valid_response status then
        (true, addPeerIp peerIp (sdDetectedBy d))
      else
        (false, d)

/-- Data of the unranged fallback GET inside `_try_limited_get`
(lines 314-349): either the request raised (swallowed by `except: pass`) or
a response; `sampled` is `none` when reading the body raised after the
header fields were already updated; `title` is the result of the
`<title>` scrape on the sampled bytes (the byte-level string search is
abstracted: the environment supplies the extracted text, if any). -/
inductive GetRetry
  | raised
  | resp (status : Nat) (schemeFinal content_type content_length : String)
      (serverHdr : Option String) (finalUrl : String) (redirected : Bool)
      (elapsed : String) (peerIp : Option String)
      (sampled : Option Nat) (title : Option String)

/-- Network outcome of the ranged GET in `_try_limited_get`
(lines 258-370): an exception (`get_error: <T>`) or a completed response,
together with the data of the optional retry GET. -/
inductive GetOutcome
  | err (kind : String)
  | resp (status : Nat) (schemeFinal content_type content_length server : String)
      (finalUrl : String) (redirected : Bool) (elapsed : String)
      (peerIp : Option String) (sampled : Option Nat) (title : Option String)
      (retry : GetRetry)

/-- The `title_debug` line built when no title was found (line 352). -/
def titleDebugLine (d : Details) : String :=
  "no <title> in first " ++
    (match d.sampled_bytes with | some n => toString n | none => "?") ++
    " bytes; ct=" ++ d.content_type.getD "" ++
    "; url=" ++ d.final_url.getD ""

/-- Applying the retry response of `_try_limited_get` to the details dict
(lines 316-347); returns the details and whether a title was found. -/
def applyGetRetry (r : GetRetry) (d : Details) : Details × Bool :=
  match r with
  | .raised => (d, false)
  | .resp status schemeFinal ct cl serverHdr finalUrl redirected elapsed
      peerIp sampled title =>
      let d := { d with
        status_code := some status, scheme := some schemeFinal,
        content_type := some ct, content_length := some cl,
        server := some (serverHdr.getD (d.server.getD "")),
        response_time := some elapsed, final_url := some finalUrl,
        redirected := some redirected }
      let d := addPeerIp peerIp d
      match sampled, title with
      | some n, some t => ({ d with sampled_bytes := some n, title := some t }, true)
      | some n, none => ({ d with sampled_bytes := some n }, false)
      | none, _ => (d, false)

/-- Model of `_try_limited_get(session, url, details, start_time)`
(http_enumerator.py lines 258-370).  The recorded scheme is
`urlparse(str(response.url)).scheme` — the final scheme after redirects,
supplied by the outcome — so the requested URL does not appear here. -/
def try_limited_get (o : GetOutcome) (d : Details) : Bool × Details :=
  match o with
  | .err kind => (false, { d with error := some kind })
  | .resp status schemeFinal ct cl server finalUrl redirected elapsed
      peerIp sampled title retry =>
      let d := { d with
        method := some "GET(limited)", scheme := some schemeFinal,
        status_code := some status, content_type := some ct,
        content_length := some cl, server := some server,
        response_time := some elapsed, final_url := some finalUrl,
        redirected := some redirected }
      if is_valid_response status then
        let d := addPeerIp peerIp (sdDetectedBy d)
        let (d, titleFound) :=
          match sampled, title with
          | some n, some t => ({ d with sampled_bytes := some n, title := some t }, true)
          | some n, none => ({ d with sampled_bytes := some n }, false)
          | none, _ => (d, false)
        let (d, titleFound) :=
          if ¬ titleFound ∧ status < 400 then applyGetRetry retry d
          else (d, titleFound)
        let d :=
          if titleFound then d
          else { d with title_debug := some (titleDebugLine d) }
        (true, d)
      else
        (false, d)

/-- Per-candidate network behaviour for the three strategy tiers; the two
schemes of each tier are independent attempts. -/
structure VerifyNet where
  headAt : Scheme → AttemptOutcome
  optionsAt : Scheme → AttemptOutcome
  getAt : Scheme → GetOutcome

/-- Model of `_verify_subdomain_http(subdomain, session)` (lines 136-206): tiers
HEAD, OPTIONS, limited GET, each gathered over https and http; the scan
over the gathered pair takes the first element whose flag is true (gather
preserves list order).  The `asyncio.gather` calls use
`return_exceptions=True` and the attempt functions catch their own
exceptions, so the outer `except` (lines 204-206) is unreachable in the
model. -/
def verify_subdomain_http (sub : String) (net : VerifyNet)
    (enable_get_fallback : Bool) : Bool × Details :=
  let base := baseDetails sub
  let headRes := [try_request "HEAD" .https (net.headAt .https) base,
                  try_request "HEAD" .http (net.headAt .http) base]
  match headRes.find? (fun r => r.1) with
  | some r => (true, sdDetectedBy r.2)
  | none =>
    let optRes := [try_request "OPTIONS" .https (net.optionsAt .https) base,
                   try_request "OPTIONS" .http (net.optionsAt .http) base]
    match optRes.find? (fun r => r.1) with
    | some r => (true, sdDetectedBy r.2)
    | none =>
      if enable_get_fallback then
        let getRes := [try_limited_get (net.getAt .https) base,
                       try_limited_get (net.getAt .http) base]
        match getRes.find? (fun r => r.1) with
        | some r => (true, sdDetectedBy r.2)
        | none => (false, base)
      else (false, base)

/-! ### DNS pre-filter (`_dns_resolve`, lines 74-121) -/

/-- Outcome of the OS-resolver fallback (`loop.getaddrinfo` wrapped in
`asyncio.wait_for`): either the deduplicated address list on success, or
any exception — resolution failure or timeout alike. -/
inductive FallbackRes
  | ok (ips : List String)
  | failed

/-- Results of the aiodns A / AAAA queries; `none` means the query raised
(swallowed by the bare `except: pass`). -/
structure ResolverNet where
  a_records : Option (List String)
  aaaa_records : Option (List String)

/-- Model of `_dns_resolve(subdomain, resolver)`: with a resolver, existence means
some A or AAAA address came back; without one, `getaddrinfo` success means
existence (even with an empty address list) and any failure means
non-existence. -/
def dns_resolve (resolver : Option ResolverNet) (fb : FallbackRes) :
    Bool × Option (List String) :=
  match resolver with
  | none =>
      match fb with
      | .ok ips => if ips.isEmpty then (true, none) else (true, some ips)
      | .failed => (false, none)
  | some rn =>
      let ips := rn.a_records.getD [] ++ rn.aaaa_records.getD []
      if ips.isEmpty then (false, none) else (true, some ips)

/-! ### Enrichment (`_enrich_with_get`, lines 373-398) and the per-candidate
verifier (`check_subdomain`, lines 548-578) -/

/-- Model of `_enrich_with_get(session, subdomain, details)`: skip when already
detected by a GET; otherwise one more limited GET on the recorded scheme,
restoring `detected_by` on the outcome.  The enrichment GET's outcome is
keyed by the scheme string used in the URL. -/
def enrich_with_get (sub : String) (enrichNet : String → GetOutcome)
    (d : Details) : Details :=
  if py_starts_with (py_upper (d.method.getD "")) "GET" then d
  else
    let detected := d.detected_by.orElse (fun _ => d.method)
    let schemeStr := match d.scheme with
      | some s => if s = "" then "https" else s
      | none => "https"
    match try_limited_get (enrichNet schemeStr) d with
    | (true, enriched) => { enriched with detected_by := detected }
    | (false, _) => { d with detected_by := detected }

/-- Everything the network decides for one candidate word. -/
structure CandNet where
  a_records : Option (List String)
  aaaa_records : Option (List String)
  fallback : FallbackRes
  verifyNet : VerifyNet
  enrichNet : String → GetOutcome

/-- Observable effects of one `check_subdomain` call: the returned hit, the
found-hostname set afterwards, and whether the call entered the semaphore
block / invoked `_verify_subdomain_http`. -/
structure CheckResult where
  hit : Option (String × Details)
  slot_acquired : Bool
  http_probed : Bool
  found : List String
deriving DecidableEq

/-- Model of `check_subdomain(word)` (http_enumerator.py lines 548-578): DNS
pre-filter, then — under the semaphore — HTTP verification, found-set
dedupe, enrichment, and DNS/peer address merging. -/
def check_subdomain (hasResolver enable_get_fallback : Bool) (domain : String)
    (net : CandNet) (found : List String) (word : String) : CheckResult :=
  let sub := word ++ "." ++ domain
  let dnsRes := dns_resolve
    (if hasResolver then some ⟨net.a_records, net.aaaa_records⟩ else none)
    net.fallback
  if ¬ dnsRes.1 then
    ⟨none, false, false, found⟩
  else
    let v := verify_subdomain_http sub net.verifyNet enable_get_fallback
    if v.1 ∧ sub ∉ found then
      let found := sub :: found
      let d := enrich_with_get sub net.enrichNet v.2
      let d := match dnsRes.2 with
        | some l => { d with ips := some l }
        | none => d
      let d := match d.ip with
        | some p =>
            let cur := d.ips.getD []
            let d := { d with ips := some cur }
            if p ∈ cur then d else { d with ips := some (cur ++ [p]) }
        | none => d
      ⟨some (sub, d), true, true, found⟩
    else
      ⟨none, true, true, found⟩

/-! ### Progress/Cancellation Registry (`run_progress.py`)

The process-wide dicts are modelled for a single run id: the run's
`_progress` entry is an `Option (Option Nat × Nat)` (total may be `None`),
the run's `_stops` entry an `Option Bool` (only ever set to `True` by
`request_stop`). -/

/-- Model of `increment_progress(run_id, processed_delta, total=None)`
(run_progress.py lines 14-19), acting on the run's entry. -/
def increment_progress (entry : Option (Option Nat × Nat)) (delta : Nat)
    (total : Option Nat) : Option (Option Nat × Nat) :=
  let tp := entry.getD (total, 0)
  let total_now := match total with
    | some t => some t
    | none => tp.1
  some (total_now, tp.2 + delta)

/-- Model of `get_progress(run_id)` (lines 26-27). -/
def get_progress (entry : Option (Option Nat × Nat)) : Option Nat × Nat :=
  entry.getD (none, 0)

/-- Model of `is_stopped(run_id)` (lines 38-39). -/
def is_stopped (stopEntry : Option Bool) : Bool :=
  stopEntry.getD false

/-! ### Enumeration Engine state (`run_http_enumerator`, lines 464-702)

The run record, the run's registry entries, the `subdomains` table rows for
all runs (only the uniqueness-constrained `(run_id, host)` columns — the
`source` and serialized-metadata columns play no role in any claim), and
the loop-local `found_domains` set and `total_found` counter. -/

structure EngineSt where
  status : String
  error_message : Option String
  log_snippet : String
  finished : Bool
  progress : Option (Option Nat × Nat)
  stopEntry : Option Bool
  db : List (Nat × String)
  found : List String
  total_found : Nat
deriving DecidableEq

/-- Model of `_update_run(session, run, status=..., log_line=..., error=...,
finished=...)` (lines 415-436).  Timestamps are outside the embedding; the
`finished` flag records that `finished_at` was stamped.  All call sites
pass either `None` or a nonempty literal, so Python truthiness of the
keyword arguments is `isSome`. -/
def update_run (st : EngineSt) (status log_line error : Option String)
    (finished : Bool) : EngineSt :=
  let st := match status with
    | some s => { st with status := s }
    | none => st
  let st := match log_line with
    | some l => { st with log_snippet := append_log st.log_snippet l }
    | none => st
  let st := match error with
    | some e => { st with error_message := some e }
    | none => st
  if finished then { st with finished := true } else st

/-- The hosts recorded in the `subdomains` table for one run. -/
def rows_for (runId : Nat) (db : List (Nat × String)) : List String :=
  (db.filter (fun r => r.1 == runId)).map Prod.snd

/-- Model of `session.add_all(batch_subdomains)` + `commit` with
`except IntegrityError: rollback` (lines 663-669): the whole batch commits
atomically unless some inserted row violates the `(run_id, host)` unique
constraint — against an existing row or another inserted row — in which
case the transaction is rolled back and the table is unchanged. -/
def bulk_insert (db rows : List (Nat × String)) : List (Nat × String) :=
  if (rows.any fun r => db.contains r) ∨ ¬ rows.Nodup then db else db ++ rows

/-- The `processed` component of the run's progress entry. -/
def processedOf (st : EngineSt) : Nat :=
  (get_progress st.progress).2

/-! ### Batch processing (lines 580-677) -/

def MAX_CONCURRENT_REQUESTS : Nat := 50
def REQUEST_TIMEOUT : Nat := 5
def BATCH_SIZE : Nat := 200

/-- The per-hit log line (lines 632-646).  Python truthiness of
`response_time` (a positive float for any completed request) is `isSome` of
its opaque rendering. -/
def hitInfo (sub : String) (d : Details) : String :=
  let info := "✅ " ++ sub
  let info := info ++ " [" ++ d.method.getD "None" ++ " " ++ d.scheme.getD "None" ++ " " ++
    (match d.status_code with | some n => toString n | none => "None") ++ "]"
  let info := match d.response_time with
    | some t => info ++ " (" ++ t ++ "s)"
    | none => info
  let info := match d.ips with
    | some l =>
        if l.isEmpty then info
        else
          let ips_str := String.intercalate ", " (l.take 3)
          let ips_str := if l.length > 3 then
              ips_str ++ " +" ++ toString (l.length - 3) ++ "..."
            else ips_str
          info ++ " IP:[" ++ ips_str ++ "]"
    | none => info
  let info := if (d.server.getD "") ≠ "" then
      info ++ " - " ++ (d.server.getD "").take 30
    else info
  if (d.title.getD "") ≠ "" then
    info ++ " - " ++ (d.title.getD "").take 50
  else if (d.title_debug.getD "") ≠ "" then
    info ++ " - 无标题(" ++ (d.title_debug.getD "").take 120 ++ ")"
  else info

/-- The batch header log line (line 602). -/
def batch_header (batch_num total_batches size : Nat) : String :=
  "📦 处理批次 " ++ toString batch_num ++ "/" ++ toString total_batches ++
    ": " ++ toString size ++ " 个候选域名"

/-- The per-batch hit summary line (line 674). -/
def found_line (batch_found total_found : Nat) : String :=
  "📈 本批次发现 " ++ toString batch_found ++ " 个子域名，总计 " ++
    toString total_found

/-- Model of `asyncio.gather(*[check_subdomain(word) for word in batch])`
(lines 613-614): asyncio runs the tasks cooperatively in one thread and
`check_subdomain` touches the shared found-set only between awaits, so the
gather is modelled as the sequential fold threading the found set; results
come back in list order. -/
def run_batch_checks (hasResolver g : Bool) (domain : String)
    (env : String → CandNet) (found : List String) :
    List String → List (Option (String × Details)) × List String
  | [] => ([], found)
  | w :: ws =>
      let r := check_subdomain hasResolver g domain (env w) found w
      let rest := run_batch_checks hasResolver g domain env r.found ws
      (r.hit :: rest.1, rest.2)

/-- One iteration of the batch loop body after the stop check
(lines 596-677): header log, concurrent verification, hit collection, the
batched log append, the guarded bulk insert, the hit-summary line, and the
progress increment.  Exceptions among the gathered results
(`isinstance(result, Exception)`, skipped with a warning) cannot arise in
the pure model. -/
def process_batch (runId : Nat) (hasResolver g : Bool) (domain : String)
    (env : String → CandNet) (batch_num total_batches : Nat)
    (batch : List String) (st : EngineSt) : EngineSt :=
  let st1 := update_run st none (some (batch_header batch_num total_batches batch.length)) none false
  let rf := run_batch_checks hasResolver g domain env st1.found batch
  let hits := rf.1.filterMap id
  let batch_found := hits.length
  let batch_logs := hits.map (fun p => hitInfo p.1 p.2)
  let batch_subdomains := hits.map (fun p => (runId, p.1))
  let st2 := { st1 with found := rf.2, total_found := st1.total_found + batch_found }
  let st3 := if batch_logs.isEmpty then st2
    else update_run st2 none (some (String.intercalate "\n" batch_logs)) none false
  let st4 := if batch_subdomains.isEmpty then st3
    else { st3 with db := bulk_insert st3.db batch_subdomains }
  let st5 := if 0 < batch_found then
      update_run st4 none (some (found_line batch_found st4.total_found)) none false
    else st4
  { st5 with progress := increment_progress st5.progress batch.length none }

/-- The batch loop with no stop checks: processes every given batch in
order (used to name the state after a prefix of the run). -/
def process_batches_from (runId : Nat) (hasResolver g : Bool) (domain : String)
    (env : String → CandNet) (total_batches : Nat) :
    Nat → List (List String) → EngineSt → EngineSt
  | _, [], st => st
  | k, b :: rest, st =>
      process_batches_from runId hasResolver g domain env total_batches
        (k + 1) rest
        (process_batch runId hasResolver g domain env (k + 1) total_batches b st)

/-! ### Run loop, cancellation, completion, failure (lines 585-702)

External events are oracles: `stopReq k` says whether `request_stop` has
been called by the time of the stop check before batch `k`; `exnAt` injects
one unhandled exception (message included) at a batch boundary — the
conclusions of the exception handler do not depend on the point at which
the exception was raised. -/

/-- The cancellation log line (line 592). -/
def cancel_line : String := "⏹ 任务已被用户停止"

/-- Lines 586-594: `clear_progress` then
`_update_run(status="canceled", finished=True, log_line=...)`.  Note:
`clear_stop` is NOT called on this path. -/
def cancel_update (st : EngineSt) : EngineSt :=
  let st := { st with progress := none }
  update_run st (some "canceled") (some cancel_line) none true

/-- The fixed text prepended to the exception message (line 700). -/
def error_msg_head : String := "HTTP枚举器错误: "

/-- Lines 694-702: `clear_progress`, `clear_stop`, then
`_update_run(status="failed", error=f"HTTP枚举器错误: {str(e)}",
finished=True)`. -/
def handle_run_exception (msg : String) (st : EngineSt) : EngineSt :=
  let st := { st with progress := none, stopEntry := none }
  update_run st (some "failed") none (some (error_msg_head ++ msg)) true

/-- The completion summary (lines 682-684). -/
def summary_line (total_found : Nat) (hasResolver : Bool) : String :=
  "🎉 HTTP枚举完成！总计发现 " ++ toString total_found ++
    " 个真实可访问的子域名" ++
    (if hasResolver then "\n🔍 DNS预检查已过滤大量无效域名" else "")

/-- Lines 679-692: `clear_progress`, summary,
`_update_run(status="succeeded", finished=True, log_line=summary)`,
`clear_stop`. -/
def complete_update (hasResolver : Bool) (st : EngineSt) : EngineSt :=
  let st := { st with progress := none }
  let st := update_run st (some "succeeded") (some (summary_line st.total_found hasResolver)) none true
  { st with stopEntry := none }

def exn_fires (exnAt : Option (Nat × String)) (k : Nat) : Bool :=
  match exnAt with
  | some (j, _) => j == k
  | none => false

def exn_message (exnAt : Option (Nat × String)) : String :=
  match exnAt with
  | some (_, m) => m
  | none => ""

/-- The external `request_stop` having happened by check `k` makes the
run's stop entry `some true` at that moment. -/
def observe_stop (stopReq : Nat → Bool) (k : Nat) (st : EngineSt) : EngineSt :=
  if stopReq k then { st with stopEntry := some true } else st

/-- The batch loop (lines 585-677) together with the completion path and
the surrounding `except` handler: before each batch `is_stopped` is
consulted; the loop then either cancels, processes the batch, or — when
the injected exception fires at this boundary — fails. -/
def run_batches (runId : Nat) (hasResolver g : Bool) (domain : String)
    (env : String → CandNet) (stopReq : Nat → Bool)
    (exnAt : Option (Nat × String)) (total_batches : Nat) :
    Nat → List (List String) → EngineSt → EngineSt
  | k, [], st =>
      if exn_fires exnAt k then handle_run_exception (exn_message exnAt) st
      else complete_update hasResolver st
  | k, b :: rest, st =>
      if exn_fires exnAt k then handle_run_exception (exn_message exnAt) st
      else
        let st := observe_stop stopReq k st
        if is_stopped st.stopEntry then cancel_update st
        else run_batches runId hasResolver g domain env stopReq exnAt
          total_batches (k + 1) rest
          (process_batch runId hasResolver g domain env (k + 1) total_batches b st)

/-! ### Wordlist filtering and batching (lines 502-504, 581-598) -/

/-- Model of `[line.strip() for line in f if line.strip() and not
line.startswith('#')]`: the filter tests the original line, the result is
the stripped line. -/
def filter_words (lines : List String) : List String :=
  (lines.filter (fun l => pyStrip l ≠ "" ∧ ¬ py_starts_with l "#")).map pyStrip

/-- Helper for `word_batches`: structural recursion on a fuel counter that
starts at the word count (each slice consumes at least one word, so the
fuel never runs out on the reachable calls). -/
def chunk_go : Nat → List String → List (List String)
  | _, [] => []
  | 0, _ :: _ => []
  | fuel + 1, w :: ws =>
      (w :: ws).take BATCH_SIZE :: chunk_go fuel ((w :: ws).drop BATCH_SIZE)

/-- Model of `words[i:i+batch_size]` for `i in range(0, len(words), batch_size)`. -/
def word_batches (words : List String) : List (List String) :=
  chunk_go words.length words

/-! ### Run entry (service entry lines 56-80 of enumeration_service.py and
engine lines 486-546) -/

def start_line_0 : String := "🚀 启动内置 HTTP 枚举器（纯 Python）..."

def start_line_1 (n : Nat) : String :=
  "🚀 启动HTTP枚举器：" ++ toString n ++ " 个候选子域名"

def start_line_2 : String :=
  "⚡ 配置：并发=" ++ toString MAX_CONCURRENT_REQUESTS ++ ", 超时=" ++
    toString REQUEST_TIMEOUT ++ "s, DNS预检查=启用"

def start_line_3 : String :=
  "🎯 策略：DNS解析 → 并行 HEAD(HTTPS+HTTP) → OPTIONS → GET(受限)"

def resolver_line (hasResolver : Bool) : String :=
  if hasResolver then "🔍 DNS解析器已启用，将先过滤不存在的域名"
  else "⚠️  未安装 aiodns，跳过 DNS 预检查 (pip install aiodns)"

/-- The state on entering the batch loop: the service entry clears the
run's stop flag and progress entry and logs its banner
(enumeration_service.py lines 60-77), then the engine transitions the run
to `running`, initialises progress to `(len(words), 0)` and appends the
startup/configuration/resolver log lines (engine lines 486-535).  The
upstream feature-flag and wordlist-resolution failures exit before this
region. -/
def engine_start (hasResolver : Bool) (wordCount : Nat) (st0 : EngineSt) : EngineSt :=
  let st := { st0 with stopEntry := none, progress := none }
  let st := update_run st none (some start_line_0) none false
  let st := update_run st (some "running") none none false
  let st := { st with progress := some (some wordCount, 0) }
  let st := update_run st none (some (start_line_1 wordCount)) none false
  let st := update_run st none (some start_line_2) none false
  let st := update_run st none (some start_line_3) none false
  update_run st none (some (resolver_line hasResolver)) none false

/-- The whole modelled run: filter the wordlist, set up, loop the batches
(`total_batches = (len(words) + batch_size - 1) // batch_size`). -/
def run_enumerator (runId : Nat) (hasResolver g : Bool) (domain : String)
    (env : String → CandNet) (stopReq : Nat → Bool)
    (exnAt : Option (Nat × String)) (lines : List String)
    (st0 : EngineSt) : EngineSt :=
  let words := filter_words lines
  run_batches runId hasResolver g domain env stopReq exnAt
    ((words.length + BATCH_SIZE - 1) / BATCH_SIZE) 0 (word_batches words)
    (engine_start hasResolver words.length st0)

/-! ### Strategy-order characterisation used by C2 -/

inductive Tier
  | head
  | optionsTier
  | getLimited
deriving DecidableEq

/-- The sequence of attempts `_verify_subdomain_http` is willing to make,
in order: HEAD over https then http, OPTIONS over https then http, and —
only when the GET fallback is enabled — limited GET over https then http. -/
def attemptSeq (enable_get_fallback : Bool) : List (Tier × Scheme) :=
  [(.head, .https), (.head, .http), (.optionsTier, .https), (.optionsTier, .http)] ++
    (if enable_get_fallback then [(.getLimited, .https), (.getLimited, .http)] else [])

/-- The result of one attempt slot, on a fresh details dict. -/
def attemptRun (sub : String) (net : VerifyNet) : Tier → Scheme → Bool × Details
  | .head, s => try_request "HEAD" s (net.headAt s) (baseDetails sub)
  | .optionsTier, s => try_request "OPTIONS" s (net.optionsAt s) (baseDetails sub)
  | .getLimited, s => try_limited_get (net.getAt s) (baseDetails sub)

/-! ### Concrete sample data used to instantiate hypotheses -/

/-- A sample per-candidate network where every probe fails. -/
def sampleVerifyNet : VerifyNet where
  headAt := fun _ => .err "timeout"
  optionsAt := fun _ => .err "connection_refused"
  getAt := fun _ => .err "get_error: TimeoutError"

/-- A sample candidate network whose DNS pre-filter is negative on the
OS-resolver fallback path. -/
def sampleNegNet : CandNet where
  a_records := none
  aaaa_records := none
  fallback := .failed
  verifyNet := sampleVerifyNet
  enrichNet := fun _ => .err "get_error: TimeoutError"

/-- A sample candidate network that resolves via the fallback path and
answers 200 to the first HEAD probe. -/
def sampleHitNet : CandNet where
  a_records := none
  aaaa_records := none
  fallback := .ok ["93.184.216.34"]
  verifyNet :=
    { headAt := fun _ => .resp 200 "text/html" "1256" "ECS" (some "93.184.216.34") "0.12"
      optionsAt := fun _ => .err "timeout"
      getAt := fun _ => .err "get_error: TimeoutError" }
  enrichNet := fun _ =>
    .resp 200 "https" "text/html" "1256" "ECS" "https://www.example.com/"
      false "0.25" (some "93.184.216.34") (some 1256) (some "Example Domain")
      .raised

def sampleEnv : String → CandNet := fun _ => sampleNegNet

/-- Oracle: `request_stop` was called before the run began. -/
def alwaysStop : Nat → Bool := fun _ => true

/-- Oracle: `request_stop` is never called. -/
def neverStop : Nat → Bool := fun _ => false

def sampleHitEnv : String → CandNet := fun _ => sampleHitNet

/-- A fresh run record before the engine starts. -/
def sampleSt0 : EngineSt where
  status := "pending"
  error_message := none
  log_snippet := ""
  finished := false
  progress := none
  stopEntry := none
  db := []
  found := []
  total_found := 0

/-- A run-record state mid-loop. -/
def sampleRunSt : EngineSt where
  status := "running"
  error_message := none
  log_snippet := ""
  finished := false
  progress := some (some 1, 0)
  stopEntry := none
  db := []
  found := []
  total_found := 0

/-- A mid-loop state whose table already holds `(1, "www.example.com")`. -/
def sampleConflictSt : EngineSt where
  status := "running"
  error_message := none
  log_snippet := ""
  finished := false
  progress := some (some 1, 0)
  stopEntry := none
  db := [(1, "www.example.com")]
  found := []
  total_found := 0

/-! ### Field-preservation lemmas for the engine steps -/

@[simp] theorem update_run_progress (st : EngineSt) (a b c : Option String) (f : Bool) :
    (update_run st a b c f).progress = st.progress := by
  unfold update_run
  rcases a <;> rcases b <;> rcases c <;> cases f <;> rfl

@[simp] theorem update_run_stopEntry (st : EngineSt) (a b c : Option String) (f : Bool) :
    (update_run st a b c f).stopEntry = st.stopEntry := by
  unfold update_run
  rcases a <;> rcases b <;> rcases c <;> cases f <;> rfl

@[simp] theorem update_run_db (st : EngineSt) (a b c : Option String) (f : Bool) :
    (update_run st a b c f).db = st.db := by
  unfold update_run
  rcases a <;> rcases b <;> rcases c <;> cases f <;> rfl

@[simp] theorem update_run_found (st : EngineSt) (a b c : Option String) (f : Bool) :
    (update_run st a b c f).found = st.found := by
  unfold update_run
  rcases a <;> rcases b <;> rcases c <;> cases f <;> rfl

@[simp] theorem update_run_total_found (st : EngineSt) (a b c : Option String) (f : Bool) :
    (update_run st a b c f).total_found = st.total_found := by
  unfold update_run
  rcases a <;> rcases b <;> rcases c <;> cases f <;> rfl

theorem update_run_status_none (st : EngineSt) (b c : Option String) (f : Bool) :
    (update_run st none b c f).status = st.status := by
  unfold update_run
  rcases b <;> rcases c <;> cases f <;> rfl

theorem update_run_error_none (st : EngineSt) (a b : Option String) (f : Bool) :
    (update_run st a b none f).error_message = st.error_message := by
  unfold update_run
  rcases a <;> rcases b <;> cases f <;> rfl

theorem update_run_log_none (st : EngineSt) (a c : Option String) (f : Bool) :
    (update_run st a none c f).log_snippet = st.log_snippet := by
  unfold update_run
  rcases a <;> rcases c <;> cases f <;> rfl

theorem process_batch_stopEntry (runId : Nat) (h g : Bool) (dom : String)
    (env : String → CandNet) (bn tb : Nat) (b : List String) (st : EngineSt) :
    (process_batch runId h g dom env bn tb b st).stopEntry = st.stopEntry := by
  simp only [process_batch]
  split_ifs <;> simp

theorem process_batch_status (runId : Nat) (h g : Bool) (dom : String)
    (env : String → CandNet) (bn tb : Nat) (b : List String) (st : EngineSt) :
    (process_batch runId h g dom env bn tb b st).status = st.status := by
  simp only [process_batch]
  split_ifs <;> simp [update_run_status_none]

theorem process_batch_progress (runId : Nat) (h g : Bool) (dom : String)
    (env : String → CandNet) (bn tb : Nat) (b : List String) (st : EngineSt) :
    (process_batch runId h g dom env bn tb b st).progress =
      increment_progress st.progress b.length none := by
  simp only [process_batch]
  split_ifs <;> simp

theorem get_progress_increment (e : Option (Option Nat × Nat)) (d : Nat) :
    (get_progress (increment_progress e d none)).2 = (get_progress e).2 + d := by
  rcases e with _ | ⟨t, p⟩ <;> rfl

theorem processedOf_process_batch (runId : Nat) (h g : Bool) (dom : String)
    (env : String → CandNet) (bn tb : Nat) (b : List String) (st : EngineSt) :
    processedOf (process_batch runId h g dom env bn tb b st) =
      processedOf st + b.length := by
  unfold processedOf
  rw [process_batch_progress, get_progress_increment]

theorem processedOf_batches_from (runId : Nat) (h g : Bool) (dom : String)
    (env : String → CandNet) (tb : Nat) :
    ∀ (batches : List (List String)) (k : Nat) (st : EngineSt),
      processedOf (process_batches_from runId h g dom env tb k batches st) =
        processedOf st + (batches.map List.length).sum := by
  intro batches
  induction batches with
  | nil => intro k st; simp [process_batches_from]
  | cons b rest ih =>
      intro k st
      simp only [process_batches_from, List.map_cons, List.sum_cons]
      rw [ih, processedOf_process_batch]
      omega

theorem chunk_go_sum :
    ∀ (fuel : Nat) (words : List String), words.length ≤ fuel →
      ((chunk_go fuel words).map List.length).sum = words.length := by
  intro fuel
  induction fuel with
  | zero =>
      intro words h
      cases words with
      | nil => rfl
      | cons a l => simp at h
  | succ n ih =>
      intro words h
      cases words with
      | nil => rfl
      | cons a l =>
          simp only [chunk_go, List.map_cons, List.sum_cons]
          rw [ih ((a :: l).drop BATCH_SIZE)
            (by simp only [List.length_drop, List.length_cons, BATCH_SIZE] at h ⊢; omega)]
          simp only [List.length_take, List.length_drop, List.length_cons, BATCH_SIZE]
          omega

/-- The batch slices partition the word list: their sizes sum to the word
count. -/
theorem word_batches_sum (words : List String) :
    ((word_batches words).map List.length).sum = words.length :=
  chunk_go_sum words.length words (Nat.le_refl _)

/-- Sums of longer prefixes of a list of naturals dominate sums of shorter
ones. -/
theorem sum_take_mono (ns : List Nat) :
    ∀ i j, i ≤ j → (ns.take i).sum ≤ (ns.take j).sum := by
  induction ns with
  | nil => intro i j _; simp
  | cons n t ih =>
      intro i j hij
      cases i with
      | zero => simp
      | succ i =>
          cases j with
          | zero => omega
          | succ j =>
              simp only [List.take_succ_cons, List.sum_cons]
              exact Nat.add_le_add_left (ih i j (Nat.le_of_succ_le_succ hij)) n

theorem observe_stop_of_false {stopReq : Nat → Bool} {k : Nat}
    (st : EngineSt) (hk : stopReq k = false) :
    observe_stop stopReq k st = st := by
  simp [observe_stop, hk]

theorem observe_stop_log (stopReq : Nat → Bool) (k : Nat) (st : EngineSt) :
    (observe_stop stopReq k st).log_snippet = st.log_snippet := by
  unfold observe_stop
  split <;> rfl

/-! ### Loop-shape lemmas: the three ways a run ends -/

/-- With no injected exception and no stop request observed at any of its
checks, the loop processes every batch and completes. -/
theorem run_batches_no_stop (runId : Nat) (h g : Bool) (dom : String)
    (env : String → CandNet) (stopReq : Nat → Bool) (tb : Nat) :
    ∀ (batches : List (List String)) (k : Nat) (st : EngineSt),
      (∀ i, k ≤ i → i < k + batches.length → stopReq i = false) →
      st.stopEntry.getD false = false →
      run_batches runId h g dom env stopReq none tb k batches st =
        complete_update h (process_batches_from runId h g dom env tb k batches st) := by
  intro batches
  induction batches with
  | nil =>
      intro k st _ _
      simp [run_batches, exn_fires, process_batches_from]
  | cons b rest ih =>
      intro k st hfree hentry
      have hk : stopReq k = false :=
        hfree k (Nat.le_refl k) (by simp only [List.length_cons]; omega)
      simp only [run_batches, exn_fires, process_batches_from]
      rw [observe_stop_of_false st hk]
      simp only [is_stopped, hentry, if_false]
      exact ih (k + 1)
        (process_batch runId h g dom env (k + 1) tb b st)
        (fun i h1 h2 => hfree i (by omega)
          (by simp only [List.length_cons] at h2 ⊢; omega))
        (by rw [process_batch_stopEntry]; exact hentry)

/-- If some stop check at index `n` (within the remaining batches) sees the
flag set, the loop cancels at the first such check `j ≤ n`, having
processed exactly the batches before `j`. -/
theorem run_batches_cancel_aux (runId : Nat) (h g : Bool) (dom : String)
    (env : String → CandNet) (stopReq : Nat → Bool) (tb : Nat) :
    ∀ (batches : List (List String)) (k n : Nat) (st : EngineSt),
      stopReq n = true → k ≤ n → n - k < batches.length →
      st.stopEntry.getD false = false →
      ∃ j, k ≤ j ∧ j ≤ n ∧ stopReq j = true ∧
        (∀ i, k ≤ i → i < j → stopReq i = false) ∧
        run_batches runId h g dom env stopReq none tb k batches st =
          cancel_update (observe_stop stopReq j
            (process_batches_from runId h g dom env tb k
              (batches.take (j - k)) st)) := by
  intro batches
  induction batches with
  | nil =>
      intro k n st _ _ hlt _
      simp only [List.length_nil] at hlt
      omega
  | cons b rest ih =>
      intro k n st hn hkn hlt hentry
      by_cases hk : stopReq k = true
      · refine ⟨k, Nat.le_refl k, hkn, hk, by omega, ?_⟩
        rw [Nat.sub_self]
        simp [run_batches, exn_fires, process_batches_from, observe_stop,
          hk, is_stopped]
      · have hk' : stopReq k = false := by
          cases hcase : stopReq k
          · rfl
          · exact absurd hcase hk
        have hklt : k < n := by
          rcases Nat.eq_or_lt_of_le hkn with hkeq | hlt2
          · rw [hkeq] at hk'; rw [hk'] at hn; exact absurd hn (by simp)
          · exact hlt2
        have hentry' :
            (process_batch runId h g dom env (k + 1) tb b st).stopEntry.getD false
              = false := by
          rw [process_batch_stopEntry]; exact hentry
        obtain ⟨j, hj1, hj2, hj3, hj4, heq⟩ :=
          ih (k + 1) n (process_batch runId h g dom env (k + 1) tb b st)
            hn (by omega) (by simp at hlt ⊢; omega) hentry'
        refine ⟨j, by omega, hj2, hj3, ?_, ?_⟩
        · intro i h1 h2
          rcases Nat.eq_or_lt_of_le h1 with hkeq | hlt2
          · rw [← hkeq]; exact hk'
          · exact hj4 i hlt2 h2
        · have hjk : j - k = (j - (k + 1)) + 1 := by omega
          rw [hjk, List.take_succ_cons]
          simp only [run_batches, exn_fires, process_batches_from]
          rw [observe_stop_of_false st hk']
          simp only [is_stopped, hentry, if_false]
          exact heq

/-- An exception injected at boundary `j` (with no earlier stop observed)
makes the loop fail through the handler, having processed exactly the
batches before `j`. -/
theorem run_batches_exn_aux (runId : Nat) (h g : Bool) (dom : String)
    (env : String → CandNet) (stopReq : Nat → Bool) (tb : Nat) (msg : String) :
    ∀ (batches : List (List String)) (k j : Nat) (st : EngineSt),
      k ≤ j → j - k ≤ batches.length →
      (∀ i, k ≤ i → i < j → stopReq i = false) →
      st.stopEntry.getD false = false →
      run_batches runId h g dom env stopReq (some (j, msg)) tb k batches st =
        handle_run_exception msg
          (process_batches_from runId h g dom env tb k
            (batches.take (j - k)) st) := by
  intro batches
  induction batches with
  | nil =>
      intro k j st hkj hlt _ _
      have hjk : j = k := by simp at hlt; omega
      subst hjk
      simp [run_batches, exn_fires, exn_message, process_batches_from]
  | cons b rest ih =>
      intro k j st hkj hlt hfree hentry
      by_cases hjk : j = k
      · subst hjk
        rw [Nat.sub_self]
        simp [run_batches, exn_fires, exn_message, process_batches_from]
      · have hklt : k < j := by omega
        have hkfires : exn_fires (some (j, msg)) k = false := by
          simp [exn_fires]; omega
        have hk' : stopReq k = false := hfree k (Nat.le_refl k) hklt
        have hjk2 : j - k = (j - (k + 1)) + 1 := by omega
        rw [hjk2, List.take_succ_cons]
        simp only [run_batches, hkfires, if_false, Bool.false_eq_true,
          process_batches_from]
        rw [observe_stop_of_false st hk']
        simp only [is_stopped, hentry, if_false]
        exact ih (k + 1) j (process_batch runId h g dom env (k + 1) tb b st)
          (by omega) (by simp at hlt ⊢; omega)
          (fun i h1 h2 => hfree i (by omega) h2)
          (by rw [process_batch_stopEntry]; exact hentry)

/-! ### Theorems: C1, C2, C3, C6 -/

/-- C1: the Response Classifier returns valid exactly when the status code is
in [200, 400) or belongs to the fixed 4xx allow-list; all other codes
(all 5xx, and 4xx outside the list such as 402 and 419) are invalid. -/
theorem is_valid_response_correct (c : Nat) :
    is_valid_response c = true ↔ ((200 ≤ c ∧ c < 400) ∨ c ∈ valid_4xx) := by
  unfold is_valid_response
  by_cases h : 200 ≤ c ∧ c < 400
  · simp [h]
  · simp [h, List.contains, List.elem_iff]

/-- C6 counterexample: `_append_log` applies Python `strip()` to the
concatenation, which also removes trailing whitespace of the appended line,
so the result is not always a suffix of the concatenated buffer: appending
the line "y " to the buffer "x" yields "x\ny", which is not a suffix of
"x" ++ "\n" ++ "y ". -/
theorem append_log_not_suffix_of_concat :
    ¬ (append_log "x" "y ").data <:+ ("x" ++ "\n" ++ "y ").data := by
  decide

/-- C6 amended: the log-append operation returns a buffer of length at most
`LOG_LIMIT` (4000) characters, and the result is always a suffix of the
whitespace-stripped concatenated buffer (strip is applied before truncation,
so besides dropping oldest content on overflow, leading/trailing whitespace
of the combined text is removed; for appended lines without trailing
whitespace this is exactly a suffix of the concatenation). -/
theorem append_log_bound_and_suffix (log line : String) :
    (append_log log line).length ≤ LOG_LIMIT ∧
    (append_log log line).data <:+ (pyStrip (log ++ "\n" ++ line)).data := by
  unfold append_log
  by_cases h : (pyStrip (log ++ "\n" ++ line)).length > LOG_LIMIT
  · simp only [h, if_true]
    refine ⟨?_, List.drop_suffix _ _⟩
    simp only [String.length, List.length_drop]
    simp only [String.length] at h
    omega
  · simp only [h, if_false]
    exact ⟨Nat.le_of_not_lt h, List.suffix_refl _⟩

/-- C2: the verifier is exactly "first valid attempt in the ordered attempt
sequence wins": it equals a first-match scan over HEAD, OPTIONS, limited-GET
(each https then http), where an attempt wins iff its result classifies as
valid; later tiers are never consulted once a match exists, a tier's two
failures escalate to the next, and with the GET fallback disabled the GET
slots are absent from the sequence, so exhausting HEAD and OPTIONS reports
a miss. -/
theorem verify_subdomain_http_strategy_order (sub : String) (net : VerifyNet)
    (g : Bool) :
    verify_subdomain_http sub net g =
      match (attemptSeq g).find? (fun p => (attemptRun sub net p.1 p.2).1) with
      | some p => (true, sdDetectedBy (attemptRun sub net p.1 p.2).2)
      | none => (false, baseDetails sub) := by
  rcases e1 : try_request "HEAD" Scheme.https (net.headAt Scheme.https)
      (baseDetails sub) with ⟨b1, d1⟩
  rcases e2 : try_request "HEAD" Scheme.http (net.headAt Scheme.http)
      (baseDetails sub) with ⟨b2, d2⟩
  rcases e3 : try_request "OPTIONS" Scheme.https (net.optionsAt Scheme.https)
      (baseDetails sub) with ⟨b3, d3⟩
  rcases e4 : try_request "OPTIONS" Scheme.http (net.optionsAt Scheme.http)
      (baseDetails sub) with ⟨b4, d4⟩
  rcases e5 : try_limited_get (net.getAt Scheme.https) (baseDetails sub)
      with ⟨b5, d5⟩
  rcases e6 : try_limited_get (net.getAt Scheme.http) (baseDetails sub)
      with ⟨b6, d6⟩
  cases g <;> cases b1 <;> cases b2 <;> cases b3 <;> cases b4 <;>
    cases b5 <;> cases b6 <;>
      simp [verify_subdomain_http, attemptSeq, attemptRun, List.find?,
        e1, e2, e3, e4, e5, e6]

/-- C3: when the DNS pre-filter is negative, `check_subdomain` returns
"not found" without acquiring a semaphore slot, without any HTTP probe, and
without touching the found set (so no DiscoveredHost can arise from it);
and on the OS-resolver fallback path any resolution failure or timeout is
treated as non-existence. -/
theorem check_subdomain_skips_on_negative_dns
    (hasResolver g : Bool) (domain word : String) (net : CandNet)
    (found : List String)
    (hneg : (dns_resolve
        (if hasResolver then some ⟨net.a_records, net.aaaa_records⟩ else none)
        net.fallback).1 = false) :
    check_subdomain hasResolver g domain net found word =
      ⟨none, false, false, found⟩ ∧
    dns_resolve none FallbackRes.failed = (false, none) := by
  refine ⟨?_, rfl⟩
  unfold check_subdomain
  simp [hneg]

/-- C3 witness: a concrete candidate on the fallback path with a failed
resolution is skipped with no slot and no probe. -/
theorem check_subdomain_skips_on_negative_dns_witness :
    check_subdomain false true "example.com" sampleNegNet [] "www" =
      ⟨none, false, false, []⟩ ∧
    dns_resolve none FallbackRes.failed = (false, none) :=
  check_subdomain_skips_on_negative_dns false true "example.com" "www"
    sampleNegNet [] rfl

/-! ### Terminal-updater field computations -/

theorem cancel_update_status (st : EngineSt) :
    (cancel_update st).status = "canceled" := rfl

theorem cancel_update_log (st : EngineSt) :
    (cancel_update st).log_snippet = append_log st.log_snippet cancel_line := rfl

/-- C4: with no fatal exception, if the stop check at index `n` (inside the
run) would see the flag set, the Engine cancels at the first positive check
`j ≤ n`: exactly the batches before `j` are processed (so after the flag is
set at most one in-flight batch completes and no further batch starts), the
run transitions to `canceled` with the finished stamp, the ProgressState
entry is cleared, and the cancellation line is appended to the log. -/
theorem engine_cancellation_bound (runId : Nat) (h g : Bool) (dom : String)
    (env : String → CandNet) (stopReq : Nat → Bool) (tb : Nat)
    (batches : List (List String)) (st : EngineSt) (n : Nat)
    (hstop : stopReq n = true) (hn : n < batches.length)
    (hentry : st.stopEntry.getD false = false) :
    ∃ j, j ≤ n ∧ (∀ i, i < j → stopReq i = false) ∧
      run_batches runId h g dom env stopReq none tb 0 batches st =
        cancel_update (observe_stop stopReq j
          (process_batches_from runId h g dom env tb 0 (batches.take j) st)) ∧
      (run_batches runId h g dom env stopReq none tb 0 batches st).status
        = "canceled" ∧
      (run_batches runId h g dom env stopReq none tb 0 batches st).progress
        = none ∧
      (run_batches runId h g dom env stopReq none tb 0 batches st).finished
        = true ∧
      (run_batches runId h g dom env stopReq none tb 0 batches st).log_snippet
        = append_log
            (process_batches_from runId h g dom env tb 0
              (batches.take j) st).log_snippet
            cancel_line := by
  obtain ⟨j, _, hj2, _, hj4, heq⟩ :=
    run_batches_cancel_aux runId h g dom env stopReq tb batches 0 n st hstop
      (Nat.zero_le n) (by omega) hentry
  rw [Nat.sub_zero] at heq
  refine ⟨j, hj2, (fun i hi => hj4 i (Nat.zero_le i) hi), heq, ?_, ?_, ?_, ?_⟩
  · rw [heq]; rfl
  · rw [heq]; rfl
  · rw [heq]; rfl
  · rw [heq, cancel_update_log, observe_stop_log]

/-- C4 witness: a one-batch run with the stop flag already requested cancels
before its first batch. -/
theorem engine_cancellation_bound_witness :
    ∃ j, j ≤ 0 ∧ (∀ i, i < j → alwaysStop i = false) ∧
      run_batches 1 false true "example.com" sampleEnv alwaysStop none 1 0
          [["www"]] sampleRunSt =
        cancel_update (observe_stop alwaysStop j
          (process_batches_from 1 false true "example.com" sampleEnv 1 0
            ([["www"]].take j) sampleRunSt)) ∧
      (run_batches 1 false true "example.com" sampleEnv alwaysStop none 1 0
          [["www"]] sampleRunSt).status = "canceled" ∧
      (run_batches 1 false true "example.com" sampleEnv alwaysStop none 1 0
          [["www"]] sampleRunSt).progress = none ∧
      (run_batches 1 false true "example.com" sampleEnv alwaysStop none 1 0
          [["www"]] sampleRunSt).finished = true ∧
      (run_batches 1 false true "example.com" sampleEnv alwaysStop none 1 0
          [["www"]] sampleRunSt).log_snippet =
        append_log
          (process_batches_from 1 false true "example.com" sampleEnv 1 0
            ([["www"]].take j) sampleRunSt).log_snippet
          cancel_line :=
  engine_cancellation_bound 1 false true "example.com" sampleEnv alwaysStop 1
    [["www"]] sampleRunSt 0 rfl (by decide) rfl

/-- C7 counterexample: the exception message is not stored verbatim as the
error field — the code prepends the fixed text "HTTP枚举器错误: ": a run
failing with message "boom" records that prefixed string, not "boom". -/
theorem engine_error_message_prefixed :
    (run_enumerator 1 false true "example.com" sampleEnv neverStop
        (some (0, "boom")) [] sampleSt0).error_message ≠ some "boom" ∧
    (run_enumerator 1 false true "example.com" sampleEnv neverStop
        (some (0, "boom")) [] sampleSt0).error_message =
      some (error_msg_head ++ "boom") := by
  exact ⟨by decide, rfl⟩

/-- C7 amended: an unhandled exception raised during the enumeration loop
makes the Engine clear the run's ProgressState and StopFlag entries and
transition the run to `failed` with the finished stamp; the error field is
the fixed text "HTTP枚举器错误: " followed by the exception's message
verbatim (not the bare message). -/
theorem engine_exception_cleanup (runId : Nat) (h g : Bool) (dom : String)
    (env : String → CandNet) (stopReq : Nat → Bool) (tb k : Nat) (msg : String)
    (batches : List (List String)) (st : EngineSt)
    (hk : k ≤ batches.length) (hfree : ∀ i, i < k → stopReq i = false)
    (hentry : st.stopEntry.getD false = false) :
    run_batches runId h g dom env stopReq (some (k, msg)) tb 0 batches st =
      handle_run_exception msg
        (process_batches_from runId h g dom env tb 0 (batches.take k) st) ∧
    (run_batches runId h g dom env stopReq (some (k, msg)) tb 0 batches st).status
      = "failed" ∧
    (run_batches runId h g dom env stopReq (some (k, msg)) tb 0 batches st).error_message
      = some (error_msg_head ++ msg) ∧
    (run_batches runId h g dom env stopReq (some (k, msg)) tb 0 batches st).progress
      = none ∧
    (run_batches runId h g dom env stopReq (some (k, msg)) tb 0 batches st).stopEntry
      = none ∧
    (run_batches runId h g dom env stopReq (some (k, msg)) tb 0 batches st).finished
      = true := by
  have heq := run_batches_exn_aux runId h g dom env stopReq tb msg batches 0 k st
    (Nat.zero_le k) (by omega) (fun i _ h2 => hfree i h2) hentry
  rw [Nat.sub_zero] at heq
  exact ⟨heq, by rw [heq]; rfl, by rw [heq]; rfl, by rw [heq]; rfl,
    by rw [heq]; rfl, by rw [heq]; rfl⟩

/-- C7 witness: an exception at the first batch boundary of a one-batch run
fails the run with the prefixed message and cleared registry entries. -/
theorem engine_exception_cleanup_witness :
    run_batches 1 false true "example.com" sampleEnv neverStop
        (some (0, "boom")) 1 0 [["www"]] sampleRunSt =
      handle_run_exception "boom"
        (process_batches_from 1 false true "example.com" sampleEnv 1 0
          ([["www"]].take 0) sampleRunSt) ∧
    (run_batches 1 false true "example.com" sampleEnv neverStop
        (some (0, "boom")) 1 0 [["www"]] sampleRunSt).status = "failed" ∧
    (run_batches 1 false true "example.com" sampleEnv neverStop
        (some (0, "boom")) 1 0 [["www"]] sampleRunSt).error_message =
      some (error_msg_head ++ "boom") ∧
    (run_batches 1 false true "example.com" sampleEnv neverStop
        (some (0, "boom")) 1 0 [["www"]] sampleRunSt).progress = none ∧
    (run_batches 1 false true "example.com" sampleEnv neverStop
        (some (0, "boom")) 1 0 [["www"]] sampleRunSt).stopEntry = none ∧
    (run_batches 1 false true "example.com" sampleEnv neverStop
        (some (0, "boom")) 1 0 [["www"]] sampleRunSt).finished = true :=
  engine_exception_cleanup 1 false true "example.com" sampleEnv neverStop 1 0
    "boom" [["www"]] sampleRunSt (by decide)
    (fun i hi => absurd hi (Nat.not_lt_zero i)) rfl

/-- C8 counterexample: a run canceled through the stop flag reaches the
terminal state `canceled` with its ProgressState entry removed but its
StopFlag entry still present — the canceled path never calls
`clear_stop`. -/
theorem canceled_run_keeps_stop_entry :
    (run_enumerator 1 false true "example.com" sampleEnv alwaysStop none
        ["www"] sampleSt0).status = "canceled" ∧
    (run_enumerator 1 false true "example.com" sampleEnv alwaysStop none
        ["www"] sampleSt0).stopEntry = some true ∧
    (run_enumerator 1 false true "example.com" sampleEnv alwaysStop none
        ["www"] sampleSt0).progress = none := by
  refine ⟨?_, ?_, ?_⟩ <;> decide

/-- C8 amended: the succeeded and failed terminal transitions remove both
the ProgressState entry and the StopFlag entry, but the canceled transition
removes only the ProgressState entry, leaving the StopFlag entry in the
registry untouched (it is cleared only when a later enumeration for the
same run id starts). -/
theorem terminal_transitions_registry (h : Bool) (msg : String) (st : EngineSt) :
    ((complete_update h st).status = "succeeded" ∧
      (complete_update h st).progress = none ∧
      (complete_update h st).stopEntry = none) ∧
    ((handle_run_exception msg st).status = "failed" ∧
      (handle_run_exception msg st).progress = none ∧
      (handle_run_exception msg st).stopEntry = none) ∧
    ((cancel_update st).status = "canceled" ∧
      (cancel_update st).progress = none ∧
      (cancel_update st).stopEntry = st.stopEntry) :=
  ⟨⟨rfl, rfl, rfl⟩, ⟨rfl, rfl, rfl⟩, ⟨rfl, rfl, rfl⟩⟩

/-- C9: the run starts with progress `(total = filtered candidate count,
processed = 0)`; each batch advances the processed count by exactly the
batch's size, so the count is non-decreasing along the run; and processing
all batches ends with processed equal to the total candidate count. -/
theorem engine_progress_accounting (runId : Nat) (h g : Bool) (dom : String)
    (env : String → CandNet) (lines : List String) (st0 : EngineSt)
    (i j : Nat) (hij : i ≤ j) :
    (engine_start h (filter_words lines).length st0).progress =
      some (some (filter_words lines).length, 0) ∧
    (∀ (bn tb : Nat) (b : List String) (st : EngineSt),
      processedOf (process_batch runId h g dom env bn tb b st) =
        processedOf st + b.length) ∧
    processedOf (process_batches_from runId h g dom env
        (((filter_words lines).length + BATCH_SIZE - 1) / BATCH_SIZE) 0
        ((word_batches (filter_words lines)).take i)
        (engine_start h (filter_words lines).length st0)) ≤
      processedOf (process_batches_from runId h g dom env
        (((filter_words lines).length + BATCH_SIZE - 1) / BATCH_SIZE) 0
        ((word_batches (filter_words lines)).take j)
        (engine_start h (filter_words lines).length st0)) ∧
    processedOf (process_batches_from runId h g dom env
        (((filter_words lines).length + BATCH_SIZE - 1) / BATCH_SIZE) 0
        (word_batches (filter_words lines))
        (engine_start h (filter_words lines).length st0)) =
      (filter_words lines).length := by
  refine ⟨rfl, processedOf_process_batch runId h g dom env, ?_, ?_⟩
  · rw [processedOf_batches_from, processedOf_batches_from]
    have hmono := sum_take_mono
      ((word_batches (filter_words lines)).map List.length) i j hij
    rw [← List.map_take, ← List.map_take] at hmono
    exact Nat.add_le_add_left hmono _
  · rw [processedOf_batches_from, word_batches_sum]
    have h0 : processedOf (engine_start h (filter_words lines).length st0) = 0 := rfl
    rw [h0, Nat.zero_add]

/-- C9 witness: a one-word run ends with processed count 1 = total. -/
theorem engine_progress_accounting_witness :
    (engine_start false (filter_words ["www"]).length sampleSt0).progress =
      some (some (filter_words ["www"]).length, 0) ∧
    (∀ (bn tb : Nat) (b : List String) (st : EngineSt),
      processedOf (process_batch 1 false true "example.com" sampleEnv bn tb b st) =
        processedOf st + b.length) ∧
    processedOf (process_batches_from 1 false true "example.com" sampleEnv
        (((filter_words ["www"]).length + BATCH_SIZE - 1) / BATCH_SIZE) 0
        ((word_batches (filter_words ["www"])).take 0)
        (engine_start false (filter_words ["www"]).length sampleSt0)) ≤
      processedOf (process_batches_from 1 false true "example.com" sampleEnv
        (((filter_words ["www"]).length + BATCH_SIZE - 1) / BATCH_SIZE) 0
        ((word_batches (filter_words ["www"])).take 1)
        (engine_start false (filter_words ["www"]).length sampleSt0)) ∧
    processedOf (process_batches_from 1 false true "example.com" sampleEnv
        (((filter_words ["www"]).length + BATCH_SIZE - 1) / BATCH_SIZE) 0
        (word_batches (filter_words ["www"]))
        (engine_start false (filter_words ["www"]).length sampleSt0)) =
      (filter_words ["www"]).length :=
  engine_progress_accounting 1 false true "example.com" sampleEnv ["www"]
    sampleSt0 0 1 (by decide)

/-! ### C10: conflict rollback -/

theorem update_run_log_line (st : EngineSt) (l : String) :
    update_run st none (some l) none false =
      { st with log_snippet := append_log st.log_snippet l } := rfl

theorem map_isEmpty {α β : Type} (f : α → β) (l : List α) :
    (l.map f).isEmpty = l.isEmpty := by
  cases l <;> rfl

theorem bulk_insert_conflict (db rows : List (Nat × String))
    (h : (rows.any fun r => db.contains r) = true) :
    bulk_insert db rows = db := by
  unfold bulk_insert
  rw [if_pos (Or.inl h)]

/-- C10: when some row of a batch's bulk commit collides with an existing
`(run, host)` row, the whole transaction is rolled back: none of the
batch's rows is persisted (the non-duplicates included) and the table is
unchanged; the run's status is untouched (the loop simply continues), and
the per-hit log lines, the batch summary line, and the progress advance by
the batch size all still happen. -/
theorem batch_conflict_rollback (runId : Nat) (h g : Bool) (dom : String)
    (env : String → CandNet) (bn tb : Nat) (batch : List String) (st : EngineSt)
    (hconf : ((((run_batch_checks h g dom env st.found batch).1.filterMap id).map
        (fun p => (runId, p.1))).any fun r => st.db.contains r) = true) :
    (process_batch runId h g dom env bn tb batch st).db = st.db ∧
    (process_batch runId h g dom env bn tb batch st).status = st.status ∧
    (process_batch runId h g dom env bn tb batch st).log_snippet =
      (let hits := (run_batch_checks h g dom env st.found batch).1.filterMap id
       let log1 := append_log st.log_snippet (batch_header bn tb batch.length)
       let log2 := if hits.isEmpty then log1
         else append_log log1
           (String.intercalate "\n" (hits.map (fun p => hitInfo p.1 p.2)))
       if 0 < hits.length then
         append_log log2 (found_line hits.length (st.total_found + hits.length))
       else log2) ∧
    processedOf (process_batch runId h g dom env bn tb batch st) =
      processedOf st + batch.length := by
  refine ⟨?_, process_batch_status runId h g dom env bn tb batch st, ?_,
    processedOf_process_batch runId h g dom env bn tb batch st⟩
  · simp only [process_batch, update_run_log_line]
    split_ifs with h1 h2 <;>
      simp only [map_isEmpty] at h1 <;>
      simp [bulk_insert_conflict _ _ hconf]
  · simp only [process_batch, update_run_log_line, map_isEmpty]
    split_ifs <;> simp

/-- C10 witness: a batch whose single hit collides with an already-present
row commits nothing, keeps the status, logs the hit and summary lines, and
still advances progress. -/
theorem batch_conflict_rollback_witness :
    (process_batch 1 false true "example.com" sampleHitEnv 1 1 ["www"]
        sampleConflictSt).db = sampleConflictSt.db ∧
    (process_batch 1 false true "example.com" sampleHitEnv 1 1 ["www"]
        sampleConflictSt).status = sampleConflictSt.status ∧
    (process_batch 1 false true "example.com" sampleHitEnv 1 1 ["www"]
        sampleConflictSt).log_snippet =
      (let hits := (run_batch_checks false true "example.com" sampleHitEnv
        sampleConflictSt.found ["www"]).1.filterMap id
       let log1 := append_log sampleConflictSt.log_snippet
         (batch_header 1 1 (["www"] : List String).length)
       let log2 := if hits.isEmpty then log1
         else append_log log1
           (String.intercalate "\n" (hits.map (fun p => hitInfo p.1 p.2)))
       if 0 < hits.length then
         append_log log2
           (found_line hits.length (sampleConflictSt.total_found + hits.length))
       else log2) ∧
    processedOf (process_batch 1 false true "example.com" sampleHitEnv 1 1
        ["www"] sampleConflictSt) =
      processedOf sampleConflictSt + (["www"] : List String).length :=
  batch_conflict_rollback 1 false true "example.com" sampleHitEnv 1 1 ["www"]
    sampleConflictSt (by decide)

/-! ### C5: per-run host uniqueness -/

theorem rows_for_append (runId : Nat) (db rows : List (Nat × String)) :
    rows_for runId (db ++ rows) = rows_for runId db ++ rows_for runId rows := by
  simp [rows_for, List.filter_append]

theorem mem_rows_for (runId : Nat) (db : List (Nat × String)) (s : String) :
    s ∈ rows_for runId db ↔ (runId, s) ∈ db := by
  constructor
  · intro hs
    rcases List.mem_map.mp hs with ⟨r, hr, hsnd⟩
    rcases List.mem_filter.mp hr with ⟨hmem, hpred⟩
    obtain ⟨r1, r2⟩ := r
    have h1 : r1 = runId := by simpa using hpred
    have h2 : r2 = s := hsnd
    rw [← h1, ← h2]
    exact hmem
  · intro hmem
    exact List.mem_map.mpr
      ⟨(runId, s), List.mem_filter.mpr ⟨hmem, by simp⟩, rfl⟩

theorem rows_for_nodup_of_nodup (runId : Nat) (rows : List (Nat × String))
    (h : rows.Nodup) : (rows_for runId rows).Nodup := by
  unfold rows_for
  refine List.Nodup.map_on ?_ (h.filter _)
  intro x hx y hy hxy
  rcases List.mem_filter.mp hx with ⟨_, hxp⟩
  rcases List.mem_filter.mp hy with ⟨_, hyp⟩
  obtain ⟨x1, x2⟩ := x
  obtain ⟨y1, y2⟩ := y
  have hx1 : x1 = runId := by simpa using hxp
  have hy1 : y1 = runId := by simpa using hyp
  simp only at hxy
  rw [hx1, hy1, hxy]

/-- The bulk insert preserves per-run host uniqueness: a conflicting batch
is discarded whole, a clean batch is disjoint from the table by the very
conflict check. -/
theorem bulk_insert_rows_nodup (runId : Nat) (db rows : List (Nat × String))
    (hdb : (rows_for runId db).Nodup) :
    (rows_for runId (bulk_insert db rows)).Nodup := by
  unfold bulk_insert
  split_ifs with hcond
  · exact hdb
  · push_neg at hcond
    rw [rows_for_append]
    refine List.Nodup.append hdb
      (rows_for_nodup_of_nodup runId rows hcond.2) ?_
    intro a ha hb
    have h1 := (mem_rows_for runId db a).mp ha
    have h2 := (mem_rows_for runId rows a).mp hb
    apply hcond.1
    exact List.any_eq_true.mpr ⟨(runId, a), h2, List.elem_eq_true_of_mem h1⟩

theorem process_batch_db (runId : Nat) (h g : Bool) (dom : String)
    (env : String → CandNet) (bn tb : Nat) (b : List String) (st : EngineSt) :
    (process_batch runId h g dom env bn tb b st).db =
      if (((run_batch_checks h g dom env st.found b).1.filterMap id).map
          (fun p => (runId, p.1))).isEmpty
      then st.db
      else bulk_insert st.db
        (((run_batch_checks h g dom env st.found b).1.filterMap id).map
          (fun p => (runId, p.1))) := by
  simp only [process_batch, update_run_log_line]
  split_ifs <;> simp_all

theorem process_batch_rows_nodup (viewId runId : Nat) (h g : Bool)
    (dom : String) (env : String → CandNet) (bn tb : Nat) (b : List String)
    (st : EngineSt) (hdb : (rows_for viewId st.db).Nodup) :
    (rows_for viewId (process_batch runId h g dom env bn tb b st).db).Nodup := by
  rw [process_batch_db]
  split_ifs
  · exact hdb
  · exact bulk_insert_rows_nodup viewId st.db _ hdb

theorem observe_stop_db (stopReq : Nat → Bool) (k : Nat) (st : EngineSt) :
    (observe_stop stopReq k st).db = st.db := by
  unfold observe_stop
  split <;> rfl

theorem cancel_update_db (st : EngineSt) : (cancel_update st).db = st.db := rfl

theorem complete_update_db (hr : Bool) (st : EngineSt) :
    (complete_update hr st).db = st.db := rfl

theorem handle_run_exception_db (msg : String) (st : EngineSt) :
    (handle_run_exception msg st).db = st.db := rfl

theorem engine_start_db (hr : Bool) (n : Nat) (st0 : EngineSt) :
    (engine_start hr n st0).db = st0.db := rfl

theorem run_batches_rows_nodup (viewId runId : Nat) (h g : Bool) (dom : String)
    (env : String → CandNet) (stopReq : Nat → Bool)
    (exnAt : Option (Nat × String)) (tb : Nat) :
    ∀ (batches : List (List String)) (k : Nat) (st : EngineSt),
      (rows_for viewId st.db).Nodup →
      (rows_for viewId
        (run_batches runId h g dom env stopReq exnAt tb k batches st).db).Nodup := by
  intro batches
  induction batches with
  | nil =>
      intro k st hdb
      simp only [run_batches]
      split
      · rw [handle_run_exception_db]; exact hdb
      · rw [complete_update_db]; exact hdb
  | cons b rest ih =>
      intro k st hdb
      simp only [run_batches]
      split
      · rw [handle_run_exception_db]; exact hdb
      · split
        · rw [cancel_update_db, observe_stop_db]; exact hdb
        · refine ih (k + 1) _ ?_
          apply process_batch_rows_nodup
          rw [observe_stop_db]
          exact hdb

/-- One `check_subdomain` call either reports no hit and leaves the found
set alone, or returns a hit whose hostname was not yet in the found set and
adds it. -/
theorem check_subdomain_hit_cases (hr g : Bool) (dom : String) (net : CandNet)
    (found : List String) (w : String) :
    ((check_subdomain hr g dom net found w).hit = none ∧
      (check_subdomain hr g dom net found w).found = found) ∨
    (∃ s d, (check_subdomain hr g dom net found w).hit = some (s, d) ∧
      s ∉ found ∧
      (check_subdomain hr g dom net found w).found = s :: found) := by
  simp only [check_subdomain]
  split_ifs with h1 h2 h3 h4 h5
  all_goals
    first
      | exact Or.inl ⟨rfl, rfl⟩
      | exact Or.inr ⟨w ++ "." ++ dom, _, rfl, h3.2, rfl⟩
      | exact Or.inr ⟨w ++ "." ++ dom, _, rfl, h5.2, rfl⟩

/-- The gathered hits of one batch have pairwise-distinct hostnames, none
of which was in the found set before the batch; the found set only grows
and ends up containing every hit. -/
theorem run_batch_checks_hits (h g : Bool) (dom : String)
    (env : String → CandNet) :
    ∀ (batch found : List String),
      (((run_batch_checks h g dom env found batch).1.filterMap id).map
        Prod.fst).Nodup ∧
      (∀ s ∈ ((run_batch_checks h g dom env found batch).1.filterMap id).map
        Prod.fst, s ∉ found) ∧
      (∀ x ∈ found, x ∈ (run_batch_checks h g dom env found batch).2) ∧
      (∀ s ∈ ((run_batch_checks h g dom env found batch).1.filterMap id).map
        Prod.fst, s ∈ (run_batch_checks h g dom env found batch).2) := by
  intro batch
  induction batch with
  | nil =>
      intro found
      simp [run_batch_checks]
  | cons w ws ih =>
      intro found
      simp only [run_batch_checks]
      rcases check_subdomain_hit_cases h g dom (env w) found w with
        ⟨hnone, hfound⟩ | ⟨s, d, hsome, hnotin, hfound⟩
      · rw [hnone, hfound]
        simp only [List.filterMap_cons, id]
        exact ih found
      · rw [hsome, hfound]
        obtain ⟨ihnd, ihnotin, ihsub, ihin⟩ := ih (s :: found)
        simp only [List.filterMap_cons, id, List.map_cons]
        refine ⟨?_, ?_, ?_, ?_⟩
        · refine List.Nodup.cons ?_ ihnd
          intro hmem
          exact absurd (List.mem_cons_self s found) (ihnotin s hmem)
        · intro t ht
          rcases List.mem_cons.mp ht with rfl | ht2
          · exact hnotin
          · intro hf
            exact ihnotin t ht2 (List.mem_cons_of_mem s hf)
        · intro x hx
          exact ihsub x (List.mem_cons_of_mem s hx)
        · intro t ht
          rcases List.mem_cons.mp ht with rfl | ht2
          · exact ihsub t (List.mem_cons_self t found)
          · exact ihin t ht2

/-- C5: within one run each hostname appears in at most one DiscoveredHost
row — starting from a table with no rows for the run, the table's hosts for
that run are pairwise distinct after the whole run (duplicate detections
never create duplicate rows) — and the in-memory found set guarantees a
hostname is never returned as a hit twice inside a batch, even when the
wordlist contains duplicate words. -/
theorem engine_host_uniqueness (runId : Nat) (h g : Bool) (dom : String)
    (env : String → CandNet) (stopReq : Nat → Bool)
    (exnAt : Option (Nat × String)) (lines : List String) (st0 : EngineSt)
    (hfresh : rows_for runId st0.db = []) :
    (rows_for runId
      (run_enumerator runId h g dom env stopReq exnAt lines st0).db).Nodup ∧
    (∀ (found batch : List String),
      (((run_batch_checks h g dom env found batch).1.filterMap id).map
        Prod.fst).Nodup ∧
      ∀ s ∈ ((run_batch_checks h g dom env found batch).1.filterMap id).map
        Prod.fst, s ∉ found) := by
  constructor
  · unfold run_enumerator
    apply run_batches_rows_nodup
    rw [engine_start_db, hfresh]
    exact List.nodup_nil
  · intro found batch
    exact ⟨(run_batch_checks_hits h g dom env batch found).1,
      (run_batch_checks_hits h g dom env batch found).2.1⟩

/-- C5 witness: a run over the duplicate wordlist `["www", "www"]` from a
fresh table still yields pairwise-distinct hosts for the run. -/
theorem engine_host_uniqueness_witness :
    (rows_for 1
      (run_enumerator 1 false true "example.com" sampleHitEnv neverStop none
        ["www", "www"] sampleSt0).db).Nodup ∧
    (∀ (found batch : List String),
      (((run_batch_checks false true "example.com" sampleHitEnv found
        batch).1.filterMap id).map Prod.fst).Nodup ∧
      ∀ s ∈ ((run_batch_checks false true "example.com" sampleHitEnv found
        batch).1.filterMap id).map Prod.fst, s ∉ found) :=
  engine_host_uniqueness 1 false true "example.com" sampleHitEnv neverStop
    none ["www", "www"] sampleSt0 rfl

end XTools
